import Mathlib

/-!
Shallow embedding of the keymaster secret manager (Python) in Lean 4, with
theorems checking the natural-language specification against the code.

Modelling conventions:
* Python strings are Lean `String`s; `str.lower()` is `pyLower` (character-wise
  `Char.toLower`, which reduces in the kernel, unlike `String.toLower`).
* The OS credential store (`keyring`) and the metadata database are modelled as
  association lists keyed by string pairs; `keyring.set_password` overwrites,
  `keyring.delete_password` raises `PasswordDeleteError` exactly when the entry
  is absent (modelled by an explicit presence test).
* Timestamps (`datetime` values, ISO strings) are modelled as integers counting
  seconds; `timedelta(days=d)` is `d * 86400` and `timedelta.days` is floor
  division by 86400 (`Int.fdiv`, matching Python's floor semantics).
* Fallible operations return `Except`; environmental failures that the claims
  do not quantify over (a broken OS backend, disk I/O errors) are outside the
  model, so functions that can only fail for those reasons are total.
-/

namespace Keymaster

/-! ## Association-list helpers (model of `dict` / keyed SQLite tables) -/

/-- Lookup in an association list (first matching key wins). -/
def alookup {κ ν : Type} [BEq κ] : List (κ × ν) → κ → Option ν
  | [], _ => none
  | p :: l, k => if p.1 == k then some p.2 else alookup l k

/-- Insert-or-replace for an association list. -/
def ainsert {κ ν : Type} [BEq κ] (l : List (κ × ν)) (k : κ) (v : ν) :
    List (κ × ν) :=
  (k, v) :: l.filter (fun p => !(p.1 == k))

/-- Delete a key from an association list (no-op when absent). -/
def aerase {κ ν : Type} [BEq κ] (l : List (κ × ν)) (k : κ) : List (κ × ν) :=
  l.filter (fun p => !(p.1 == k))

theorem alookup_filtered {κ ν : Type} [BEq κ] [LawfulBEq κ]
    (l : List (κ × ν)) (k k' : κ) (h : k' ≠ k) :
    alookup (l.filter (fun p => !(p.1 == k))) k' = alookup l k' := by
  induction l with
  | nil => rfl
  | cons p rest ih =>
    by_cases hp : p.1 = k
    · have h1 : (p.1 == k) = true := by simpa using hp
      have h2 : (p.1 == k') = false := by
        simp only [beq_eq_false_iff_ne, ne_eq]
        exact fun hk => h (by rw [← hk, hp])
      simp [List.filter_cons, h1, alookup, h2, ih]
    · have h1 : (p.1 == k) = false := by simpa using hp
      simp only [List.filter_cons, h1, Bool.not_false, if_true]
      simp [alookup, ih]

theorem alookup_ainsert_self {κ ν : Type} [BEq κ] [LawfulBEq κ]
    (l : List (κ × ν)) (k : κ) (v : ν) : alookup (ainsert l k v) k = some v := by
  simp [alookup, ainsert]

theorem alookup_ainsert_ne {κ ν : Type} [BEq κ] [LawfulBEq κ]
    (l : List (κ × ν)) (k k' : κ) (v : ν) (h : k' ≠ k) :
    alookup (ainsert l k v) k' = alookup l k' := by
  have hk : (k == k') = false := by
    simp only [beq_eq_false_iff_ne, ne_eq]
    exact fun hk => h hk.symm
  simp only [ainsert, alookup, hk, if_false]
  exact alookup_filtered l k k' h

theorem alookup_aerase_ne {κ ν : Type} [BEq κ] [LawfulBEq κ]
    (l : List (κ × ν)) (k k' : κ) (h : k' ≠ k) :
    alookup (aerase l k) k' = alookup l k' :=
  alookup_filtered l k k' h

theorem alookup_mem {κ ν : Type} [BEq κ] [LawfulBEq κ]
    {l : List (κ × ν)} {k : κ} {v : ν} (h : alookup l k = some v) :
    (k, v) ∈ l := by
  induction l with
  | nil => simp [alookup] at h
  | cons p rest ih =>
    simp only [alookup] at h
    by_cases hp : p.1 == k
    · simp only [hp, if_true, Option.some.injEq] at h
      have hkey : p.1 = k := by simpa using hp
      have : p = (k, v) := by
        cases p
        simp_all
      rw [← this]
      exact List.mem_cons_self _ _
    · simp only [hp, if_false] at h
      exact List.mem_cons_of_mem _ (ih h)

/-! ## Python string helpers -/

/-- Python `str.lower()` (character-wise, ASCII-faithful). -/
def pyLower (s : String) : String := ⟨s.data.map Char.toLower⟩

/-- Python `lst[-n:]` for a nonnegative `n`: the at-most-`n` last elements. -/
def pyLastN {α : Type} (n : Nat) (l : List α) : List α := l.drop (l.length - n)

/-! ## Metadata database (`keymaster.db.KeyDatabase`)

Modelled from the spec: the module `keymaster/db.py` is not in the source tree
(only its callers are).  Spec section 4.6 gives the contract: one table
`keys(service_name, environment, keychain_service_name, updated_at,
updated_by)` with primary key `(service_name, environment)`; `add_key`
inserts-or-replaces a row; `get_key_metadata` returns the row or nothing;
`remove_key` deletes the row if present (no error if absent); service names
are persisted lowercase and the environment is canonicalized lowercase
(section 3), with case-insensitive lookup (testable property 3). -/

/-- One row of the `keys` table, minus its primary-key columns. -/
structure KeyMetadata where
  keychain_service_name : String
  updated_at : String
  updated_by : String
  deriving DecidableEq, Repr

/-- The `keys` table, keyed by `(service_name, environment)`. -/
abbrev KeyDB : Type := List ((String × String) × KeyMetadata)

namespace KeyDatabase

/-- Modelled from the spec: `KeyDatabase.add_key` inserts-or-replaces the row
for `(service_name, environment)`; `now` stands for the current UTC
timestamp taken inside the method. -/
def add_key (db : KeyDB) (service_name envName keychain_service_name user now :
    String) : KeyDB :=
  ainsert db (pyLower service_name, pyLower envName)
    ⟨keychain_service_name, now, user⟩

/-- Modelled from the spec: `KeyDatabase.get_key_metadata`, case-insensitive
row lookup. -/
def get_key_metadata (db : KeyDB) (service envName : String) :
    Option KeyMetadata :=
  alookup db (pyLower service, pyLower envName)

/-- Modelled from the spec: `KeyDatabase.remove_key` deletes the row if
present, no error if absent. -/
def remove_key (db : KeyDB) (service envName : String) : KeyDB :=
  aerase db (pyLower service, pyLower envName)

end KeyDatabase

/-! ## Secure key store (`keymaster/security.py`, class `KeyStore`)

The state couples the OS credential store (`secrets`, keyed by
`(keyring_service_name, username)` exactly as the `keyring` API is called)
with the metadata database.  `_verify_backend` can only fail for
environmental reasons (no secure OS backend), which the claims do not
quantify over, so it is not part of the model. -/

structure KeyStoreState where
  db : KeyDB
  secrets : List ((String × String) × String)
  deriving DecidableEq, Repr

namespace KeyStore

/-- `KeyStore._get_keyring_service_name` (the `environment` argument is
unused in the source as well). -/
def get_keyring_service_name (service : String) : String :=
  "keymaster-" ++ pyLower service

/-- `KeyStore.store_key`: write the secret under
`(keymaster-<service lower>, <environment lower>)`, then insert/update the
metadata row.  `user` models `os.getlogin()` and `now` the row timestamp. -/
def store_key (st : KeyStoreState) (service envName api_key user now : String) :
    KeyStoreState :=
  let service_lower := pyLower service
  let keyring_service := get_keyring_service_name service_lower
  { secrets := ainsert st.secrets (keyring_service, pyLower envName) api_key
    db := KeyDatabase.add_key st.db service_lower envName keyring_service
      user now }

/-- `KeyStore.get_key`: metadata first (authoritative for existence); when a
row exists, read the OS store under the row's recorded backend reference. -/
def get_key (st : KeyStoreState) (service envName : String) : Option String :=
  match KeyDatabase.get_key_metadata st.db service envName with
  | none => none
  | some metadata =>
      alookup st.secrets (metadata.keychain_service_name, pyLower envName)

/-- `KeyStore.remove_key`: no metadata row means no-op.  Otherwise the source
calls `keyring.delete_password` and then `db.remove_key` inside one `try`
whose `except PasswordDeleteError` only logs: when the OS-store secret is
absent, `delete_password` raises, so the `db.remove_key` line is skipped and
only the secret-present branch deletes the metadata row. -/
def remove_key (st : KeyStoreState) (service envName : String) : KeyStoreState :=
  match KeyDatabase.get_key_metadata st.db service envName with
  | none => st
  | some metadata =>
      if (alookup st.secrets (metadata.keychain_service_name,
          pyLower envName)).isSome then
        { secrets := aerase st.secrets (metadata.keychain_service_name,
            pyLower envName)
          db := KeyDatabase.remove_key st.db service envName }
      else
        st

/-- `KeyStore.remove_key_metadata`: metadata-only deletion. -/
def remove_key_metadata (st : KeyStoreState) (service envName : String) :
    KeyStoreState :=
  { st with db := KeyDatabase.remove_key st.db service envName }

end KeyStore

/-! ## Memory security (`keymaster/memory_security.py`, class `SecureBuffer`)

`secure_zero_memory` on a `bytearray` overwrites every byte with zero; the
buffer content is a list of bytes. -/

structure SecureBuffer where
  size : Nat
  buffer : List Nat
  cleared : Bool
  deriving DecidableEq, Repr

namespace SecureBuffer

/-- `SecureBuffer(size)`: a zeroed buffer of the given capacity. -/
def init (size : Nat) : SecureBuffer :=
  { size := size, buffer := List.replicate size 0, cleared := false }

/-- `SecureBuffer.write(data, offset)`. -/
def write (b : SecureBuffer) (data : List Nat) (offset : Nat := 0) :
    Except String SecureBuffer :=
  if b.cleared then .error "Buffer has been cleared"
  else if b.size < offset + data.length then .error "Data too large for buffer"
  else .ok { b with
    buffer := b.buffer.take offset ++ data
      ++ b.buffer.drop (offset + data.length) }

/-- `SecureBuffer.read(length, offset)`; `none` reads to the end. -/
def read (b : SecureBuffer) (length : Option Nat := none) (offset : Nat := 0) :
    Except String (List Nat) :=
  if b.cleared then .error "Buffer has been cleared"
  else match length with
    | none => .ok (b.buffer.drop offset)
    | some n => .ok ((b.buffer.drop offset).take n)

/-- `SecureBuffer.clear()`: zero the buffer and mark it cleared; a second
call hits the `if not self._cleared` guard and does nothing. -/
def clear (b : SecureBuffer) : SecureBuffer :=
  if b.cleared then b
  else { b with buffer := List.replicate b.buffer.length 0, cleared := true }

end SecureBuffer

/-! ## Input validation (`keymaster/validation.py`) -/

/-- Python `str.isspace` characters relevant to `str.strip()` (ASCII). -/
def pyIsSpace (c : Char) : Bool :=
  c = ' ' || c = '\t' || c = '\n' || c = '\r' || c = '\x0b' || c = '\x0c'

/-- Python `str.strip()`. -/
def pyStrip (s : String) : String :=
  ⟨((s.data.dropWhile pyIsSpace).reverse.dropWhile pyIsSpace).reverse⟩

/-- Python `needle in hay` substring test. -/
def containsSub (hay needle : List Char) : Bool :=
  (List.range (hay.length + 1)).any
    (fun i => (hay.drop i).take needle.length == needle)

/-- ASCII letter or digit (the `[a-zA-Z0-9]` regex class). -/
def isAlnumAscii (c : Char) : Bool :=
  ('a' ≤ c && c ≤ 'z') || ('A' ≤ c && c ≤ 'Z') || ('0' ≤ c && c ≤ '9')

/-- The `[a-zA-Z0-9_-]` regex class. -/
def isAlnumDashUnderscore (c : Char) : Bool :=
  isAlnumAscii c || c = '_' || c = '-'

/-- Regex `^sk-[a-zA-Z0-9]{48}$` (the `openai` and `deepseek` patterns). -/
def matchesOpenAIPattern (key : List Char) : Bool :=
  key.length == 51 && key.take 3 == "sk-".data &&
    (key.drop 3).all isAlnumAscii

/-- Regex `^sk-ant-[a-zA-Z0-9_-]{93}$` (the `anthropic` pattern). -/
def matchesAnthropicPattern (key : List Char) : Bool :=
  key.length == 100 && key.take 7 == "sk-ant-".data &&
    (key.drop 7).all isAlnumDashUnderscore

/-- Regex `^sk-[a-zA-Z0-9]{32}$` (the `stability` pattern). -/
def matchesStabilityPattern (key : List Char) : Bool :=
  key.length == 35 && key.take 3 == "sk-".data &&
    (key.drop 3).all isAlnumAscii

/-- The `API_KEY_PATTERNS` dict: `some` when `provider.lower()` is a key. -/
def apiKeyPatternFor (provider : String) : Option (List Char → Bool) :=
  if pyLower provider = "openai" then some matchesOpenAIPattern
  else if pyLower provider = "anthropic" then some matchesAnthropicPattern
  else if pyLower provider = "stability" then some matchesStabilityPattern
  else if pyLower provider = "deepseek" then some matchesOpenAIPattern
  else none

/-- The `fake_patterns` placeholder denylist. -/
def fakePatterns : List String :=
  ["your_api_key_here", "insert_api_key", "api_key_placeholder",
   "sk-example", "sk-test", "sk-fake", "sk-placeholder"]

/-- A `ValidationError` with its `field` context. -/
structure ValidationErr where
  message : String
  field : Option String
  deriving DecidableEq, Repr

/-- `validate_api_key(api_key, provider)`.  Note the source strips the key
before the start/end-whitespace check, so that check can never fire. -/
def validate_api_key (api_key : String) (provider : Option String := none) :
    Except ValidationErr String :=
  if api_key = "" then
    .error ⟨"API key cannot be empty", some "api_key"⟩
  else
    let key := pyStrip api_key
    if key = "" then
      .error ⟨"API key cannot be empty or only whitespace", some "api_key"⟩
    else if key.data.length < 8 then
      .error ⟨"API key must be at least 8 characters long", some "api_key"⟩
    else if key.data.length > 2048 then
      .error ⟨"API key must be no more than 2048 characters long", some "api_key"⟩
    else if key.data.take 1 == [' '] || key.data.reverse.take 1 == [' '] then
      .error ⟨"API key cannot start or end with whitespace", some "api_key"⟩
    else if key.data.contains '\n' || key.data.contains '\r'
        || key.data.contains '\t' then
      .error ⟨"API key cannot contain newlines or tabs", some "api_key"⟩
    else if (match provider with
        | some p => match apiKeyPatternFor p with
          | some pat => !pat key.data
          | none => false
        | none => false) then
      .error ⟨"API key format is invalid for the provider", some "api_key"⟩
    else if fakePatterns.any
        (fun p => containsSub (pyLower key).data p.data) then
      .error ⟨"API key appears to be a placeholder or example key", some "api_key"⟩
    else
      .ok key

/-! ## Rotation history (`keymaster/rotation.py`, class `KeyRotationHistory`)

The JSON ledger is a map keyed by `"service:environment"`.  ISO timestamp
strings (produced by successive `datetime.now()` calls) are modelled as
integers. -/

/-- One entry of a per-key `rotations` list. -/
structure RotationRecord where
  timestamp : Int
  success : Bool
  user : String
  backup_path : Option String
  error_message : Option String
  deriving DecidableEq, Repr

/-- The per-key value of the ledger: the `rotations` list plus the
`last_successful_rotation` field (absent until a success is recorded). -/
structure KeyHistory where
  rotations : List RotationRecord
  last_successful_rotation : Option Int
  deriving DecidableEq, Repr

abbrev RotationHistoryMap := List (String × KeyHistory)

/-- The `f"{service}:{environment}"` ledger key. -/
def rotationKey (service envName : String) : String :=
  service ++ ":" ++ envName

namespace KeyRotationHistory

/-- `KeyRotationHistory.record_rotation`: append one attempt under the
`"service:environment"` key, keep only the last 10 entries, and update
`last_successful_rotation` only on success.  `user` models
`os.getenv("USER")` and `ts` the `datetime.now()` timestamp. -/
def record_rotation (history : RotationHistoryMap) (service envName : String)
    (success : Bool) (backup_path error_message : Option String)
    (user : String) (ts : Int) : RotationHistoryMap :=
  let key := rotationKey service envName
  let kh := (alookup history key).getD ⟨[], none⟩
  let rotation_record : RotationRecord :=
    ⟨ts, success, user, backup_path, error_message⟩
  ainsert history key
    { rotations := pyLastN 10 (kh.rotations ++ [rotation_record])
      last_successful_rotation :=
        if success then some ts else kh.last_successful_rotation }

/-- The per-key effect of one `record_rotation` call. -/
def applyAttempt (kh : KeyHistory) (a : RotationRecord) : KeyHistory :=
  { rotations := pyLastN 10 (kh.rotations ++ [a])
    last_successful_rotation :=
      if a.success then some a.timestamp else kh.last_successful_rotation }

/-- A sequence of `record_rotation` calls on the same (service, environment),
one call per list entry. -/
def recordAll (history : RotationHistoryMap) (service envName : String)
    (attempts : List RotationRecord) : RotationHistoryMap :=
  attempts.foldl
    (fun h a => record_rotation h service envName a.success a.backup_path
      a.error_message a.user a.timestamp)
    history

end KeyRotationHistory

/-- Fifteen rotation attempts with increasing timestamps 1..15; only the 12th
succeeds, the last three fail. -/
def c4Attempts : List RotationRecord :=
  (List.range 15).map
    (fun i => ⟨Int.ofNat (i + 1), i == 11, "u", none, none⟩)

/-! ## Backup manager (`keymaster/backup.py`, class `BackupManager`)

The decrypted payload of an archive is modelled as a record with optional
fields (`none` models a missing JSON field).  Password derivation and Fernet
encryption are environmental (any decryption failure raises before
`_validate_backup_data` runs), so the model starts from the decrypted
payload. -/

/-- One entry of the archive's `keys` list. -/
structure BackupKey where
  service : String
  environment : String
  key : String
  updated_at : String
  updated_by : String
  deriving DecidableEq, Repr

/-- The decrypted backup payload.  `config`, `metadata` and `audit_logs` are
opaque here: no modelled operation inspects their internal structure. -/
structure BackupData where
  version : Option String
  magic : Option String
  created_at : Option String
  created_by : Option String
  keys : Option (List BackupKey)
  metadataEntries : Option (List String)
  config : Option (List (String × String))
  audit_logs : Option (List String)
  deriving DecidableEq, Repr

/-- A `BackupError` with its `operation` context. -/
structure BackupErr where
  message : String
  operation : String
  deriving DecidableEq, Repr

def BACKUP_VERSION : String := "1.0"

def BACKUP_MAGIC : String := "KEYMASTER_BACKUP"

/-- `BackupManager._validate_backup_data`: check the required fields in the
source's order (`version`, `magic`, `created_at`, `keys`), require the exact
magic constant, and log (not raise) a warning on a version mismatch.  The
returned list holds the warnings issued. -/
def validate_backup_data (bd : BackupData) : Except BackupErr (List String) :=
  match bd.version, bd.magic, bd.created_at, bd.keys with
  | none, _, _, _ =>
      .error ⟨"Invalid backup format - missing field: version", "validate"⟩
  | some _, none, _, _ =>
      .error ⟨"Invalid backup format - missing field: magic", "validate"⟩
  | some _, some _, none, _ =>
      .error ⟨"Invalid backup format - missing field: created_at", "validate"⟩
  | some _, some _, some _, none =>
      .error ⟨"Invalid backup format - missing field: keys", "validate"⟩
  | some v, some m, some _, some _ =>
      if m ≠ BACKUP_MAGIC then
        .error ⟨"Invalid backup format - not a Keymaster backup", "validate"⟩
      else if v ≠ BACKUP_VERSION then
        .ok ["Backup version mismatch"]
      else
        .ok []

/-- `KeyStore.list_keys` restricted to what the backup analysis consumes:
the stored (service, environment) pairs.  (The provider-registry display
canonicalization of service names is irrelevant here and omitted.) -/
def KeyStore.list_key_pairs (st : KeyStoreState) : List (String × String) :=
  st.db.map (fun p => p.1)

/-- Result of `BackupManager._analyze_backup_contents` (dry-run analysis). -/
structure RestoreAnalysis where
  total_keys : Nat
  new_keys : Nat
  conflicts : Nat
  deriving DecidableEq, Repr

/-- `BackupManager._analyze_backup_contents`: compare the archive's
(service, environment) set against the current store's. -/
def analyze_backup_contents (st : KeyStoreState) (bd : BackupData) :
    RestoreAnalysis :=
  let existing := (KeyStore.list_key_pairs st).dedup
  let backupPairs :=
    ((bd.keys.getD []).map (fun k => (k.service, k.environment))).dedup
  { total_keys := (bd.keys.getD []).length
    new_keys := (backupPairs.filter (fun p => ¬ p ∈ existing)).length
    conflicts := (backupPairs.filter (fun p => p ∈ existing)).length }

/-- Result of `BackupManager._restore_backup_data`. -/
structure RestoreSummary where
  restored_keys : Nat
  skipped_keys : Nat
  errors : List String
  total_processed : Nat
  deriving DecidableEq, Repr

/-- Python truthiness of an `Optional[str]`: `None` and `""` are falsy. -/
def pyTruthy (s : Option String) : Bool := s.getD "" != ""

/-- The per-key loop of `_restore_backup_data`: skip when the current lookup
is truthy (`if existing_key and not overwrite_existing`, so a present-but-
empty value does not count) and `overwrite_existing` is false, otherwise
store.  In the model `KeyStore.store_key` cannot fail, so the `errors` list
stays empty.  Returns (restored, skipped, final state). -/
def restoreLoop (st : KeyStoreState) (ks : List BackupKey)
    (overwrite_existing : Bool) (user now : String) :
    Nat × Nat × KeyStoreState :=
  match ks with
  | [] => (0, 0, st)
  | kd :: rest =>
      if pyTruthy (KeyStore.get_key st kd.service kd.environment)
          && !overwrite_existing then
        let r := restoreLoop st rest overwrite_existing user now
        (r.1, r.2.1 + 1, r.2.2)
      else
        let st1 := KeyStore.store_key st kd.service kd.environment kd.key
          user now
        let r := restoreLoop st1 rest overwrite_existing user now
        (r.1 + 1, r.2.1, r.2.2)

/-- `BackupManager._restore_backup_data`. -/
def restore_backup_data (st : KeyStoreState) (ks : List BackupKey)
    (overwrite_existing : Bool) (user now : String) :
    RestoreSummary × KeyStoreState :=
  let r := restoreLoop st ks overwrite_existing user now
  ({ restored_keys := r.1, skipped_keys := r.2.1, errors := [],
     total_processed := ks.length }, r.2.2)

/-- Result of `BackupManager.restore_backup` past decryption. -/
inductive RestoreOutcome where
  | analysis (a : RestoreAnalysis)
  | restored (s : RestoreSummary)
  deriving DecidableEq, Repr

/-- `BackupManager.restore_backup` from the decrypted payload on: validate,
then either dry-run analysis or the actual restore.  Any exception is
re-wrapped as `BackupError(..., operation="restore")` by the outer
`except`.  The returned warning list carries the version-mismatch warning. -/
def restore_backup (st : KeyStoreState) (bd : BackupData)
    (dry_run overwrite_existing : Bool) (user now : String) :
    Except BackupErr (List String × RestoreOutcome × KeyStoreState) :=
  match validate_backup_data bd with
  | .error e =>
      .error ⟨"Failed to restore backup: " ++ e.message, "restore"⟩
  | .ok warnings =>
      if dry_run then
        .ok (warnings, .analysis (analyze_backup_contents st bd), st)
      else
        let r := restore_backup_data st (bd.keys.getD []) overwrite_existing
          user now
        .ok (warnings, .restored r.1, r.2)

/-- Key-store well-formedness: every metadata row's recorded backend
reference is derived from its own primary key, as `store_key` writes it
(`"keymaster-" + lowercase(service)`). -/
def WFKeyStore (st : KeyStoreState) : Prop :=
  ∀ p ∈ st.db, p.2.keychain_service_name = "keymaster-" ++ p.1.1

instance : DecidablePred WFKeyStore := fun st =>
  inferInstanceAs (Decidable (∀ p ∈ st.db, _))

/-- The lowercased (service, environment) pair of an archive entry, the
identity under which the key store addresses it. -/
def lowPair (kd : BackupKey) : String × String :=
  (pyLower kd.service, pyLower kd.environment)

/-! ## The `init` CLI command (`keymaster/cli.py`)

`backendOk` models whether `KeyStore._verify_backend` succeeds in the
current process state.  The `try` block of `init` binds `test_value` and
`retrieved` and runs the storage round trip (modelled through the key-store
state); a verification failure is caught and only a warning is printed.
`init` then constructs `AuditLogger()` (cli.py line 101): the logger's
`_get_encryption_key` calls `KeyStore.get_system_key`, which re-runs
`_verify_backend` before its own `try`, and any failure is re-wrapped as
`AuditError(operation="get_encryption_key")` (audit.py lines 67-69), which
nothing in `init` catches.  Only after a successful construction does
`init` build the audit event whose arguments read `retrieved` and
`test_value` (cli.py line 108) — names that are unbound whenever the `try`
block failed before binding them (a latent `NameError`, unreachable while
both failures are driven by the same backend state). -/

inductive InitOutcome where
  | alreadyInitialized
  | completed (changes : List String) (storage_test : String)
  | uncaughtAuditError
  | nameError
  deriving DecidableEq, Repr

/-- `AuditLogger.__init__` as observed by `init`: `_get_encryption_key`
re-runs `_verify_backend` (inside `KeyStore.get_system_key`,
security.py line 285) and wraps any failure as
`AuditError(operation="get_encryption_key")`; with a working backend the
key is fetched or created and construction succeeds. -/
def auditLoggerConstruct (backendOk : Bool) : Except String Unit :=
  if backendOk then .ok ()
  else .error "Failed to get audit encryption key"

def cliInit (config_exists logs_dir_exists db_dir_exists backendOk : Bool)
    (st : KeyStoreState) (user now : String) : InitOutcome :=
  if config_exists && logs_dir_exists && db_dir_exists then
    .alreadyInitialized
  else
    let changes1 := if !config_exists then
      ["Created initial configuration file"] else []
    let changes2 := changes1 ++ (if !logs_dir_exists then
      ["Created directory: ~/.keymaster/logs"] else [])
    let changes3 := changes2 ++ (if !db_dir_exists then
      ["Created directory: ~/.keymaster/db"] else [])
    -- the `try` block: on success `test_value`/`retrieved` are bound and the
    -- round trip runs; on failure the `except` prints a warning and leaves
    -- both names unbound (`none` here)
    let tryOutcome : Option (Option String) :=
      if backendOk then
        let st1 := KeyStore.store_key st "__keymaster_test__" "__test__"
          "test_value" user now
        some (KeyStore.get_key st1 "__keymaster_test__" "__test__")
      else none
    let changes4 := match tryOutcome with
      | some retrieved =>
          if retrieved = some "test_value" then
            changes3 ++ ["Verified secure storage access"]
          else changes3
      | none => changes3
    -- cli.py line 101: `audit_logger = AuditLogger()`, outside any `try`
    match auditLoggerConstruct backendOk with
    | .error _ => .uncaughtAuditError
    | .ok () =>
        -- cli.py line 108: the audit event reads `retrieved`/`test_value`
        match tryOutcome with
        | none => .nameError
        | some retrieved =>
            .completed changes4
              (if retrieved = some "test_value" then "success" else "failed")

/-! ## Audit logger (`keymaster/audit.py`, `AuditLogger.get_events`)

A log file is a list of lines; `json.loads` either fails (`malformed`) or
yields an event object.  The `timestamp` field, when present, either parses
with `datetime.fromisoformat` (`valid t`, an integer time) or raises
`ValueError` (`invalid`).  Fernet decryption of one token is modelled by a
function argument `dec` (its outcome per token is environmental: it depends
on the key and the token bytes). -/

inductive TsField where
  | valid (t : Int)
  | invalid
  deriving DecidableEq, Repr

/-- A parsed audit event object.  `decrypted_data` / `decryption_error` are
only ever added by `get_events` itself. -/
structure AuditEvent where
  timestamp : Option TsField
  event_type : Option String
  user : Option String
  service : Option String
  environment : Option String
  encrypted_data : Option String
  decrypted_data : Option String
  decryption_error : Option String
  deriving DecidableEq, Repr

inductive AuditLogLine where
  | malformed (raw : String)
  | event (e : AuditEvent)
  deriving DecidableEq, Repr

/-- The decrypt-annotation step of `get_events`: on `decrypt=True` and an
`encrypted_data` field, add `decrypted_data` on success or
`decryption_error` on failure. -/
def annotateEvent (decrypt : Bool) (dec : String → Except String String)
    (e : AuditEvent) : AuditEvent :=
  if decrypt then
    match e.encrypted_data with
    | some tok =>
        match dec tok with
        | .ok d => { e with decrypted_data := some d }
        | .error msg => { e with decryption_error := some msg }
    | none => e
  else e

/-- The three exact-match filters of the `get_events` loop body, applied in
source order (`event_type`, `service`, `environment`; a mismatch
`continue`s, i.e. yields `none`), followed by the decrypt annotation. -/
def filterChecks (event_type service environment : Option String)
    (decrypt : Bool) (dec : String → Except String String) (e : AuditEvent) :
    Option AuditEvent :=
  if (match event_type with
      | some et => e.event_type != some et
      | none => false) then none
  else if (match service with
      | some s => e.service != some s
      | none => false) then none
  else if (match environment with
      | some en => e.environment != some en
      | none => false) then none
  else some (annotateEvent decrypt dec e)

/-- One date-bound filter of `get_events`: absent bound, fall through;
present bound: reading `event["timestamp"]` raises `KeyError` when the
field is missing, `fromisoformat` raises `ValueError` when it does not
parse, and otherwise the event is kept when `keep t bound`. -/
def tsFilter (bound : Option Int) (keep : Int → Int → Bool) (e : AuditEvent)
    (next : Except String (Option AuditEvent)) :
    Except String (Option AuditEvent) :=
  match bound with
  | none => next
  | some b =>
      match e.timestamp with
      | none => .error "KeyError: timestamp"
      | some .invalid => .error "Invalid isoformat string"
      | some (.valid t) => if keep t b then next else .ok none

/-- The per-event body of the `get_events` loop: the `start_date` filter
(`continue` when `timestamp < start_date`), the `end_date` filter
(`continue` when `timestamp > end_date`), then the exact-match filters and
the decrypt annotation. -/
def processEvent (start_date end_date : Option Int)
    (event_type service environment : Option String) (decrypt : Bool)
    (dec : String → Except String String) (e : AuditEvent) :
    Except String (Option AuditEvent) :=
  tsFilter start_date (fun t b => !(t < b)) e
    (tsFilter end_date (fun t b => !(t > b)) e
      (.ok (filterChecks event_type service environment decrypt dec e)))

/-- The line loop of `get_events`: a line that fails `json.loads` is skipped
with a warning; a filter-rejected event is skipped; any exception aborts. -/
def getEventsLoop (start_date end_date : Option Int)
    (event_type service environment : Option String) (decrypt : Bool)
    (dec : String → Except String String) :
    List AuditLogLine → Except String (List AuditEvent)
  | [] => .ok []
  | .malformed _ :: rest =>
      getEventsLoop start_date end_date event_type service environment
        decrypt dec rest
  | .event e :: rest =>
      match processEvent start_date end_date event_type service environment
          decrypt dec e with
      | .error msg => .error msg
      | .ok none =>
          getEventsLoop start_date end_date event_type service environment
            decrypt dec rest
      | .ok (some e') =>
          (getEventsLoop start_date end_date event_type service environment
            decrypt dec rest).map (e' :: ·)

/-- `AuditLogger.get_events`: the whole read is wrapped in one `try` whose
`except` re-raises any exception as `AuditError(operation="get_events")`. -/
def get_events (start_date end_date : Option Int)
    (event_type service environment : Option String) (decrypt : Bool)
    (dec : String → Except String String) (file : List AuditLogLine) :
    Except String (List AuditEvent) :=
  match getEventsLoop start_date end_date event_type service environment
      decrypt dec file with
  | .error msg => .error ("Failed to retrieve audit events: " ++ msg)
  | .ok events => .ok events

/-- Spec-side filter predicate (the claim's "satisfy the supplied filters"):
an event passes a date bound when its timestamp parses and lies inside the
range, and passes the three exact-match filters. -/
def specMatches (start_date end_date : Option Int)
    (event_type service environment : Option String) (e : AuditEvent) :
    Bool :=
  (match start_date with
    | none => true
    | some b =>
        match e.timestamp with
        | some (.valid t) => !(t < b)
        | _ => false) &&
  (match end_date with
    | none => true
    | some b =>
        match e.timestamp with
        | some (.valid t) => !(t > b)
        | _ => false) &&
  (match event_type with
    | some et => e.event_type == some et
    | none => true) &&
  (match service with
    | some s => e.service == some s
    | none => true) &&
  (match environment with
    | some en => e.environment == some en
    | none => true)

/-- Spec-side description of `get_events`: exactly the events from lines that
parse as JSON and satisfy the filters, in file order, each annotated per the
decrypt flag. -/
def specGetEvents (start_date end_date : Option Int)
    (event_type service environment : Option String) (decrypt : Bool)
    (dec : String → Except String String) (file : List AuditLogLine) :
    List AuditEvent :=
  file.filterMap (fun l =>
    match l with
    | .malformed _ => none
    | .event e =>
        if specMatches start_date end_date event_type service environment e
        then some (annotateEvent decrypt dec e)
        else none)

/-! ## Fuzzy matching (`keymaster/exceptions.py`, `_get_closest_matches`) -/

/-- The similarity score of `_get_closest_matches`: common-character count
over the larger length, plus a flat 0.5 bonus when either lowered string
contains the other. -/
def pySimilarity (target candidate : String) : ℚ :=
  let t := (pyLower target).data
  let c := (pyLower candidate).data
  let common_chars := (t.filter (fun ch => c.contains ch)).length
  let max_len := max t.length c.length
  let similarity : ℚ :=
    if 0 < max_len then (common_chars : ℚ) / (max_len : ℚ) else 0
  if containsSub c t || containsSub t c then similarity + 1/2 else similarity

/-- The claim's scoring formula, stated from the spec's words: (count of
target characters present in the candidate, case-insensitive) divided by the
max of the two lengths, plus 0.5 when either string contains the other. -/
def specSimilarity (target candidate : String) : ℚ :=
  let t := (pyLower target).data
  let c := (pyLower candidate).data
  ((t.filter (fun ch => c.contains ch)).length : ℚ)
      / ((max t.length c.length : ℕ) : ℚ)
    + (if containsSub c t || containsSub t c then 1/2 else 0)

/-- Stable insertion into a descending-sorted list: `x` goes in front of the
first strictly-smaller element, after any equal ones (Python's stable
`sort(reverse=True)`). -/
def insertDescBy {α β : Type} [LT β] [DecidableRel ((· < ·) : β → β → Prop)]
    (key : α → β) (x : α) : List α → List α
  | [] => [x]
  | y :: ys => if key y < key x then x :: y :: ys else y :: insertDescBy key x ys

/-- Stable descending sort by a key (extensionally Python's
`sort(key=..., reverse=True)`). -/
def sortDescBy {α β : Type} [LT β] [DecidableRel ((· < ·) : β → β → Prop)]
    (key : α → β) (l : List α) : List α :=
  l.foldl (fun acc x => insertDescBy key x acc) []

/-- `_get_closest_matches(target, candidates, max_matches=3)`. -/
def getClosestMatches (target : String) (candidates : List String)
    (max_matches : Nat := 3) : List String :=
  if candidates.isEmpty || target = "" then []
  else
    let scored_candidates := candidates.map
      (fun candidate => (pySimilarity target candidate, candidate))
    let sorted := sortDescBy (fun p => p.1) scored_candidates
    let good_matches :=
      (sorted.filter (fun p => (3/10 : ℚ) < p.1)).map (fun p => p.2)
    good_matches.take max_matches

/-! ## Rotation candidates (`keymaster/rotation.py`, `KeyRotator`)

`KeyStore.list_keys()` output is a parameter (`storedKeys`, one triple per
stored key: service, environment, `updated_at` as an integer time). -/

/-- The reference time a stored key is aged against: its
`last_successful_rotation` when it has one, else its metadata
`updated_at`. -/
def effectiveLast (history : RotationHistoryMap)
    (service envName : String) (updated_at : Int) : Int :=
  match alookup history (rotationKey service envName) with
  | some kh =>
      match kh.last_successful_rotation with
      | some t => t
      | none => updated_at
  | none => updated_at

/-- `KeyRotationHistory.get_keys_due_for_rotation(days_threshold)`: keys whose
reference time is strictly before `now - days_threshold` days. -/
def get_keys_due_for_rotation (history : RotationHistoryMap)
    (storedKeys : List (String × String × Int)) (now days_threshold : Int) :
    List (String × String × Int) :=
  let threshold_date := now - days_threshold * 86400
  storedKeys.filterMap (fun k =>
    let last_rotation := effectiveLast history k.1 k.2.1 k.2.2
    if last_rotation < threshold_date then
      some (k.1, k.2.1, last_rotation)
    else none)

/-- One entry of `KeyRotator.list_rotation_candidates`. -/
structure RotationCandidate where
  service : String
  environment : String
  last_rotation : Int
  days_since_rotation : Int
  urgency : String
  deriving DecidableEq, Repr

/-- The `urgency_order` dict used for sorting. -/
def urgencyOrder (u : String) : Nat :=
  if u = "high" then 3 else if u = "medium" then 2 else 1

/-- The per-due-key candidate record built inside
`list_rotation_candidates`: integer days-since-rotation (`timedelta.days`,
floor) and the urgency level derived from it. -/
def mkRotationCandidate (now : Int) (d : String × String × Int) :
    RotationCandidate :=
  let days_since_rotation := Int.fdiv (now - d.2.2) 86400
  { service := d.1
    environment := d.2.1
    last_rotation := d.2.2
    days_since_rotation := days_since_rotation
    urgency := if days_since_rotation > 180 then "high"
      else if days_since_rotation > 120 then "medium" else "low" }

/-- `KeyRotator.list_rotation_candidates(days_threshold=90)`: annotate each
due key, then sort by (urgency, days) descending. -/
def list_rotation_candidates (history : RotationHistoryMap)
    (storedKeys : List (String × String × Int)) (now : Int)
    (days_threshold : Int := 90) : List RotationCandidate :=
  let due := get_keys_due_for_rotation history storedKeys now days_threshold
  let candidates := due.map (mkRotationCandidate now)
  sortDescBy (fun c => toLex (urgencyOrder c.urgency, c.days_since_rotation))
    candidates

/-! ## Theorems -/

/-- A concrete key-store state: a metadata row for `(openai, dev)` is present
but the OS credential store holds no corresponding secret. -/
def orphanState : KeyStoreState :=
  { db := [(("openai", "dev"), ⟨"keymaster-openai", "2026-01-01T00:00:00", "alice"⟩)]
    secrets := [] }

/-- C1, counterexample.  On a pair whose metadata row exists but whose
OS-store secret is absent, `KeyStore.remove_key` returns (no exception), yet
the metadata database still lists the pair afterwards — the claim that the
row is removed is false at this input. -/
theorem remove_key_orphan_keeps_metadata :
    KeyStore.remove_key orphanState "openai" "dev" = orphanState ∧
      KeyDatabase.get_key_metadata
        (KeyStore.remove_key orphanState "openai" "dev").db "openai" "dev" =
        some ⟨"keymaster-openai", "2026-01-01T00:00:00", "alice"⟩ := by
  constructor <;> rfl

/-- C1, amended claim.  For every (service, environment) pair that has a
metadata row but whose OS-store secret is absent, `KeyStore.remove_key`
completes without raising, but it leaves the whole state — in particular the
metadata row — unchanged: the row is only removed when the OS-store secret
deletion succeeded. -/
theorem remove_key_missing_secret_is_noop (st : KeyStoreState)
    (service envName : String) (m : KeyMetadata)
    (hmeta : KeyDatabase.get_key_metadata st.db service envName = some m)
    (hsecret : alookup st.secrets (m.keychain_service_name, pyLower envName)
      = none) :
    KeyStore.remove_key st service envName = st ∧
      KeyDatabase.get_key_metadata
        (KeyStore.remove_key st service envName).db service envName = some m := by
  have hres : KeyStore.remove_key st service envName = st := by
    unfold KeyStore.remove_key
    rw [hmeta]
    simp [hsecret]
  exact ⟨hres, by rw [hres, hmeta]⟩

/-- C1, witness for the amended claim at the concrete orphan state. -/
theorem remove_key_missing_secret_is_noop_witness :
    KeyStore.remove_key orphanState "openai" "dev" = orphanState ∧
      KeyDatabase.get_key_metadata
        (KeyStore.remove_key orphanState "openai" "dev").db "openai" "dev" =
        some ⟨"keymaster-openai", "2026-01-01T00:00:00", "alice"⟩ :=
  remove_key_missing_secret_is_noop orphanState "openai" "dev" _ rfl rfl

theorem pyLastN_eq_reverse {α : Type} (n : Nat) (l : List α) :
    pyLastN n l = (l.reverse.take n).reverse := by
  unfold pyLastN
  rw [List.reverse_take]
  simp

theorem pyLastN_append {α : Type} (n : Nat) (l l2 : List α) :
    pyLastN n (pyLastN n l ++ l2) = pyLastN n (l ++ l2) := by
  rw [pyLastN_eq_reverse n l, pyLastN_eq_reverse, pyLastN_eq_reverse n (l ++ l2)]
  rw [List.reverse_append, List.reverse_reverse, List.reverse_append]
  rw [List.take_append_eq_append_take, List.take_append_eq_append_take]
  rw [List.take_take, Nat.min_eq_left (Nat.sub_le _ _)]

theorem getLast?_cons_getD {α : Type} (a : α) (l : List α) :
    (a :: l).getLast? = some (l.getLast?.getD a) := by
  induction l generalizing a with
  | nil => rfl
  | cons b m ih =>
    rw [List.getLast?_cons_cons, ih b]
    rfl

namespace KeyRotationHistory

theorem record_rotation_lookup (h : RotationHistoryMap)
    (service envName : String) (a : RotationRecord) :
    alookup (record_rotation h service envName a.success a.backup_path
        a.error_message a.user a.timestamp) (rotationKey service envName) =
      some (applyAttempt ((alookup h (rotationKey service envName)).getD
        ⟨[], none⟩) a) := by
  unfold record_rotation applyAttempt
  exact alookup_ainsert_self _ _ _

theorem recordAll_lookup (service envName : String) :
    ∀ (attempts : List RotationRecord) (h : RotationHistoryMap),
    (alookup (recordAll h service envName attempts)
        (rotationKey service envName)).getD ⟨[], none⟩ =
      attempts.foldl applyAttempt
        ((alookup h (rotationKey service envName)).getD ⟨[], none⟩) := by
  intro attempts
  induction attempts with
  | nil => intro h; rfl
  | cons a rest ih =>
    intro h
    show (alookup (recordAll (record_rotation h service envName a.success
        a.backup_path a.error_message a.user a.timestamp) service envName rest)
        (rotationKey service envName)).getD ⟨[], none⟩ = _
    rw [ih, record_rotation_lookup]
    rfl

theorem foldl_applyAttempt_rotations (attempts : List RotationRecord) :
    ∀ kh : KeyHistory, kh.rotations.length ≤ 10 →
    (attempts.foldl applyAttempt kh).rotations =
      pyLastN 10 (kh.rotations ++ attempts) := by
  induction attempts with
  | nil =>
    intro kh hlen
    show kh.rotations = pyLastN 10 (kh.rotations ++ [])
    unfold pyLastN
    rw [List.append_nil, Nat.sub_eq_zero_of_le hlen, List.drop_zero]
  | cons a rest ih =>
    intro kh hlen
    show (rest.foldl applyAttempt (applyAttempt kh a)).rotations = _
    rw [ih]
    · show pyLastN 10 (pyLastN 10 (kh.rotations ++ [a]) ++ rest) = _
      rw [pyLastN_append, List.append_assoc]
      rfl
    · show (pyLastN 10 _).length ≤ 10
      unfold pyLastN
      rw [List.length_drop]
      omega

theorem foldl_applyAttempt_lsr (attempts : List RotationRecord) :
    ∀ kh : KeyHistory,
    (attempts.foldl applyAttempt kh).last_successful_rotation =
      match (attempts.filter (fun r => r.success)).getLast? with
      | some r => some r.timestamp
      | none => kh.last_successful_rotation := by
  induction attempts with
  | nil => intro kh; rfl
  | cons a rest ih =>
    intro kh
    show (rest.foldl applyAttempt (applyAttempt kh a)).last_successful_rotation
      = _
    rw [ih, List.filter_cons]
    by_cases ha : a.success = true
    · rw [if_pos (by simpa using ha), getLast?_cons_getD]
      cases hrest : (rest.filter (fun r => r.success)).getLast? with
      | none => simp [applyAttempt, ha]
      | some r => rfl
    · rw [if_neg (by simpa using ha)]
      cases hrest : (rest.filter (fun r => r.success)).getLast? with
      | none => simp [applyAttempt, ha]
      | some r => rfl

end KeyRotationHistory

/-- Per-key ledger content after a sequence of `record_rotation` calls on one
(service, environment), starting from an empty ledger. -/
def historyAfter (service envName : String)
    (attempts : List RotationRecord) : KeyHistory :=
  (alookup (KeyRotationHistory.recordAll [] service envName attempts)
    (rotationKey service envName)).getD ⟨[], none⟩

/-- C4.  For every sequence of `record_rotation` calls on the same
(service, environment) with nondecreasing `datetime.now()` timestamps, the
ledger retains exactly the (at most) 10 most recent attempts, in
chronological order, and `last_successful_rotation` equals the timestamp of
the most recent successful attempt — failures recorded later do not change
it. -/
theorem record_rotation_retention (service envName : String)
    (attempts : List RotationRecord)
    (hmono : List.Pairwise
      (fun a b : RotationRecord => a.timestamp ≤ b.timestamp) attempts) :
    (historyAfter service envName attempts).rotations = pyLastN 10 attempts ∧
    (historyAfter service envName attempts).rotations.length ≤ 10 ∧
    List.Pairwise (fun a b : RotationRecord => a.timestamp ≤ b.timestamp)
      (historyAfter service envName attempts).rotations ∧
    (historyAfter service envName attempts).last_successful_rotation =
      ((attempts.filter (fun r => r.success)).getLast?).map
        (fun r => r.timestamp) := by
  have hbase : historyAfter service envName attempts =
      attempts.foldl KeyRotationHistory.applyAttempt ⟨[], none⟩ := by
    unfold historyAfter
    rw [KeyRotationHistory.recordAll_lookup]
    rfl
  have hrot : (historyAfter service envName attempts).rotations =
      pyLastN 10 attempts := by
    rw [hbase, KeyRotationHistory.foldl_applyAttempt_rotations attempts
      ⟨[], none⟩ (by simp)]
    rfl
  refine ⟨hrot, ?_, ?_, ?_⟩
  · rw [hrot]
    unfold pyLastN
    rw [List.length_drop]
    omega
  · rw [hrot]
    unfold pyLastN
    exact List.Pairwise.sublist (List.drop_sublist _ _) hmono
  · rw [hbase, KeyRotationHistory.foldl_applyAttempt_lsr]
    cases (attempts.filter (fun r => r.success)).getLast? <;> rfl

/-- C4, witness: 15 attempts with increasing timestamps 1..15, the 12th
successful and the last three failed: the ledger keeps 10 entries and
`last_successful_rotation` stays at timestamp 12. -/
theorem record_rotation_retention_witness :
    (historyAfter "openai" "dev" c4Attempts).rotations.length ≤ 10 ∧
    (historyAfter "openai" "dev" c4Attempts).last_successful_rotation =
      some 12 := by
  have h := record_rotation_retention "openai" "dev" c4Attempts (by decide)
  exact ⟨h.2.1, h.2.2.2.trans (by decide)⟩

theorem SecureBuffer.cleared_clear (b : SecureBuffer) :
    (SecureBuffer.clear b).cleared = true := by
  unfold SecureBuffer.clear
  split
  · assumption
  · rfl

/-- C10.  Once `clear()` has been called on a `SecureBuffer`, every subsequent
`write` and every subsequent `read` fails with the error
"Buffer has been cleared", while calling `clear()` again is a no-op (and
`clear` is total, so it never raises). -/
theorem secure_buffer_cleared_lifecycle (b : SecureBuffer) :
    (∀ data offset,
      SecureBuffer.write (SecureBuffer.clear b) data offset =
        .error "Buffer has been cleared") ∧
    (∀ length offset,
      SecureBuffer.read (SecureBuffer.clear b) length offset =
        .error "Buffer has been cleared") ∧
    SecureBuffer.clear (SecureBuffer.clear b) = SecureBuffer.clear b := by
  refine ⟨fun data offset => ?_, fun length offset => ?_, ?_⟩
  · simp [SecureBuffer.write, SecureBuffer.cleared_clear b]
  · simp [SecureBuffer.read, SecureBuffer.cleared_clear b]
  · by_cases hb : b.cleared = true <;> simp [SecureBuffer.clear, hb]

/-- C8, code-bug evidence.  The key `" validkey123 "` starts and ends with
whitespace, yet `validate_api_key` accepts it and returns the trimmed key:
the source strips the key before the start/end-whitespace check, so that
check is unreachable and no `ValidationError` is raised for
leading/trailing whitespace. -/
theorem validate_api_key_accepts_whitespace_bordered :
    validate_api_key " validkey123 " none = .ok "validkey123" := by
  rfl

/-- C2, code-bug evidence.  On a not-yet-initialized host whose secure
backend fails verification, `init` prints its warning and creates the
config file and both directories, but then terminates with an uncaught
`AuditError`: the `AuditLogger()` construction at cli.py line 101 re-runs
`_verify_backend` inside `KeyStore.get_system_key` and audit.py lines 67-69
wrap the failure as `AuditError(operation="get_encryption_key")`, which
`init` does not catch.  No audit event is recorded and `init` does not
complete normally, contradicting the claim. -/
theorem init_backend_failure_uncaught_audit_error :
    cliInit false false false false ⟨[], []⟩ "u" "t" =
      InitOutcome.uncaughtAuditError :=
  rfl

theorem restore_of_validate_error (st : KeyStoreState) (bd : BackupData)
    (dry_run overwrite_existing : Bool) (user now : String) (e : BackupErr)
    (h : validate_backup_data bd = .error e) :
    restore_backup st bd dry_run overwrite_existing user now =
      .error ⟨"Failed to restore backup: " ++ e.message, "restore"⟩ := by
  unfold restore_backup
  rw [h]

/-- C3.  For every decrypted backup payload: a missing required field
(`version`, `magic`, `created_at` or `keys`) makes `restore_backup` raise a
`BackupError`; a `magic` value other than `"KEYMASTER_BACKUP"` makes it
raise a `BackupError`; and when the required fields are present with the
exact magic, the archive is accepted — a `version` other than `"1.0"` only
yields the version-mismatch warning, never an error. -/
theorem restore_backup_magic_version_gate (st : KeyStoreState)
    (bd : BackupData) (dry_run overwrite_existing : Bool) (user now : String) :
    ((bd.version = none ∨ bd.magic = none ∨ bd.created_at = none ∨
        bd.keys = none) →
      ∃ e, restore_backup st bd dry_run overwrite_existing user now =
        .error e) ∧
    (∀ m, bd.magic = some m → m ≠ BACKUP_MAGIC →
      ∃ e, restore_backup st bd dry_run overwrite_existing user now =
        .error e) ∧
    (∀ v c ks, bd.version = some v → bd.magic = some BACKUP_MAGIC →
      bd.created_at = some c → bd.keys = some ks →
      ∃ out st', restore_backup st bd dry_run overwrite_existing user now =
        .ok (if v = BACKUP_VERSION then [] else ["Backup version mismatch"],
          out, st')) := by
  refine ⟨fun h => ?_, fun m hm hne => ?_, fun v c ks hv hm hc hk => ?_⟩
  · have : ∃ e, validate_backup_data bd = .error e := by
      unfold validate_backup_data
      rcases h with h | h | h | h
      · rw [h]
        exact ⟨_, rfl⟩
      · rw [h]
        cases hv : bd.version
        · exact ⟨_, rfl⟩
        · exact ⟨_, rfl⟩
      · rw [h]
        cases hv : bd.version
        · exact ⟨_, rfl⟩
        · cases hm : bd.magic
          · exact ⟨_, rfl⟩
          · exact ⟨_, rfl⟩
      · rw [h]
        cases hv : bd.version
        · exact ⟨_, rfl⟩
        · cases hm : bd.magic
          · exact ⟨_, rfl⟩
          · cases hc : bd.created_at
            · exact ⟨_, rfl⟩
            · exact ⟨_, rfl⟩
    obtain ⟨e, he⟩ := this
    exact ⟨_, restore_of_validate_error st bd dry_run overwrite_existing
      user now e he⟩
  · have : ∃ e, validate_backup_data bd = .error e := by
      unfold validate_backup_data
      rw [hm]
      cases hv : bd.version
      · exact ⟨_, rfl⟩
      · cases hc : bd.created_at
        · exact ⟨_, rfl⟩
        · cases hk : bd.keys
          · exact ⟨_, rfl⟩
          · exact ⟨⟨"Invalid backup format - not a Keymaster backup",
              "validate"⟩, by simp [hne]⟩
    obtain ⟨e, he⟩ := this
    exact ⟨_, restore_of_validate_error st bd dry_run overwrite_existing
      user now e he⟩
  · have hval : validate_backup_data bd =
        .ok (if v = BACKUP_VERSION then [] else ["Backup version mismatch"]) := by
      by_cases hveq : v = BACKUP_VERSION <;>
        simp [validate_backup_data, hv, hm, hc, hk, hveq, BACKUP_MAGIC,
          BACKUP_VERSION] <;>
        simp [apply_ite, hveq]
    cases hd : dry_run with
    | true =>
      refine ⟨.analysis (analyze_backup_contents st bd), st, ?_⟩
      simp [restore_backup, hval]
    | false =>
      refine ⟨.restored
        (restore_backup_data st (bd.keys.getD []) overwrite_existing
          user now).1,
        (restore_backup_data st (bd.keys.getD []) overwrite_existing
          user now).2, ?_⟩
      simp [restore_backup, hval]

/-- A complete, magic-correct backup payload with version `"0.9"`. -/
def versionMismatchPayload : BackupData :=
  { version := some "0.9", magic := some "KEYMASTER_BACKUP",
    created_at := some "2026-01-01T00:00:00", created_by := some "alice",
    keys := some [⟨"openai", "dev", "sk-live-key-123", "t", "alice"⟩],
    metadataEntries := some [], config := some [], audit_logs := some [] }

/-- C3, witness: a payload whose version is `"0.9"` (not `"1.0"`) is still
accepted by `restore_backup`, carrying exactly the version-mismatch
warning. -/
theorem restore_backup_magic_version_gate_witness :
    ∃ out st', restore_backup ⟨[], []⟩ versionMismatchPayload false false
      "u" "t" = .ok (["Backup version mismatch"], out, st') :=
  (restore_backup_magic_version_gate ⟨[], []⟩ versionMismatchPayload
    false false "u" "t").2.2 "0.9" "2026-01-01T00:00:00" _ rfl rfl rfl rfl

theorem charToLower_idem (c : Char) : c.toLower.toLower = c.toLower := by
  have key : ∀ (n : Nat), n.isValidChar → (Char.ofNat n).toNat = n := by
    intro n h
    rw [Char.ofNat, dif_pos h]
    exact BitVec.toNat_ofNatLt _ _
  unfold Char.toLower
  by_cases h : c.toNat ≥ 65 ∧ c.toNat ≤ 90
  · rw [if_pos h]
    have htn : (Char.ofNat (c.toNat + 32)).toNat = c.toNat + 32 :=
      key _ (Or.inl (by omega))
    rw [htn, if_neg (by omega)]
  · rw [if_neg h, if_neg h]

theorem pyLower_idem (s : String) : pyLower (pyLower s) = pyLower s := by
  apply String.ext
  show (s.data.map Char.toLower).map Char.toLower = s.data.map Char.toLower
  induction s.data with
  | nil => rfl
  | cons c l ih => simp [ih, charToLower_idem]

theorem string_append_ne (s : String) {a b : String} (h : a ≠ b) :
    s ++ a ≠ s ++ b := by
  intro hh
  have hdata : s.data ++ a.data = s.data ++ b.data := by
    have := congrArg String.data hh
    simpa [String.data_append] using this
  exact h (String.ext (List.append_cancel_left hdata))

theorem get_key_store_key_self (st : KeyStoreState) (s e v user now : String) :
    KeyStore.get_key (KeyStore.store_key st s e v user now) s e = some v := by
  simp only [KeyStore.store_key, KeyStore.get_key,
    KeyStore.get_keyring_service_name, KeyDatabase.add_key,
    KeyDatabase.get_key_metadata, pyLower_idem, alookup_ainsert_self]

theorem get_key_store_key_ne (st : KeyStoreState) (s e s' e' v user now :
    String) (hwf : WFKeyStore st)
    (hne : (pyLower s', pyLower e') ≠ (pyLower s, pyLower e)) :
    KeyStore.get_key (KeyStore.store_key st s e v user now) s' e' =
      KeyStore.get_key st s' e' := by
  simp only [KeyStore.store_key, KeyStore.get_key,
    KeyStore.get_keyring_service_name, KeyDatabase.add_key,
    KeyDatabase.get_key_metadata, pyLower_idem]
  rw [alookup_ainsert_ne _ _ _ _ hne]
  cases hmeta : alookup st.db (pyLower s', pyLower e') with
  | none => rfl
  | some m =>
      have hmem := alookup_mem hmeta
      have hkc : m.keychain_service_name = "keymaster-" ++ pyLower s' :=
        hwf _ hmem
      have hkey : (m.keychain_service_name, pyLower e') ≠
          ("keymaster-" ++ pyLower s, pyLower e) := by
        rw [hkc]
        intro hp
        apply hne
        have h1 := congrArg Prod.fst hp
        have h2 := congrArg Prod.snd hp
        simp only at h1 h2
        refine Prod.ext ?_ h2
        by_contra hs
        exact string_append_ne "keymaster-" hs h1
      simp only
      rw [alookup_ainsert_ne _ _ _ _ hkey]

theorem WFKeyStore_store_key (st : KeyStoreState) (s e v user now : String)
    (hwf : WFKeyStore st) :
    WFKeyStore (KeyStore.store_key st s e v user now) := by
  intro p hp
  simp only [KeyStore.store_key, KeyDatabase.add_key, ainsert,
    KeyStore.get_keyring_service_name] at hp
  cases hp with
  | head => rfl
  | tail _ hmem => exact hwf _ (List.mem_filter.mp hmem).1

theorem get_key_some_ne_empty (st : KeyStoreState) (s e v : String)
    (hsec : ∀ p ∈ st.secrets, p.2 ≠ "")
    (h : KeyStore.get_key st s e = some v) : v ≠ "" := by
  unfold KeyStore.get_key at h
  cases hmeta : KeyDatabase.get_key_metadata st.db s e with
  | none => rw [hmeta] at h; cases h
  | some m =>
      rw [hmeta] at h
      exact hsec _ (alookup_mem h)

theorem restoreLoop_cons (st : KeyStoreState) (kd : BackupKey)
    (rest : List BackupKey) (ow : Bool) (user now : String) :
    restoreLoop st (kd :: rest) ow user now =
      if pyTruthy (KeyStore.get_key st kd.service kd.environment) && !ow then
        ((restoreLoop st rest ow user now).1,
         (restoreLoop st rest ow user now).2.1 + 1,
         (restoreLoop st rest ow user now).2.2)
      else
        ((restoreLoop (KeyStore.store_key st kd.service kd.environment kd.key
            user now) rest ow user now).1 + 1,
         (restoreLoop (KeyStore.store_key st kd.service kd.environment kd.key
            user now) rest ow user now).2.1,
         (restoreLoop (KeyStore.store_key st kd.service kd.environment kd.key
            user now) rest ow user now).2.2) := rfl

theorem restoreLoop_total (ks : List BackupKey) :
    ∀ (st : KeyStoreState) (ow : Bool) (user now : String),
    (restoreLoop st ks ow user now).1 + (restoreLoop st ks ow user now).2.1 =
      ks.length := by
  induction ks with
  | nil => intro st ow user now; rfl
  | cons kd rest ih =>
    intro st ow user now
    cases hc : pyTruthy (KeyStore.get_key st kd.service kd.environment)
        && !ow with
    | true =>
      rw [restoreLoop_cons, hc]
      show (restoreLoop st rest ow user now).1 +
        ((restoreLoop st rest ow user now).2.1 + 1) = rest.length + 1
      have := ih st ow user now
      omega
    | false =>
      rw [restoreLoop_cons, hc]
      show ((restoreLoop (KeyStore.store_key st kd.service kd.environment
          kd.key user now) rest ow user now).1 + 1) +
        (restoreLoop (KeyStore.store_key st kd.service kd.environment
          kd.key user now) rest ow user now).2.1 = rest.length + 1
      have := ih (KeyStore.store_key st kd.service kd.environment kd.key
        user now) ow user now
      omega

theorem restoreLoop_counts (ks : List BackupKey) :
    ∀ (st : KeyStoreState) (user now : String),
    WFKeyStore st →
    (∀ kd ∈ ks, ∀ v,
      KeyStore.get_key st kd.service kd.environment = some v → v ≠ "") →
    (ks.map lowPair).Nodup →
    (restoreLoop st ks false user now).1 =
      (ks.filter (fun kd =>
        (KeyStore.get_key st kd.service kd.environment).isNone)).length ∧
    (restoreLoop st ks false user now).2.1 =
      (ks.filter (fun kd =>
        (KeyStore.get_key st kd.service kd.environment).isSome)).length := by
  induction ks with
  | nil => intro st user now _ _ _; exact ⟨rfl, rfl⟩
  | cons kd rest ih =>
    intro st user now hwf hv hnodup
    rw [List.map_cons, List.nodup_cons] at hnodup
    cases hex : KeyStore.get_key st kd.service kd.environment with
    | some v =>
      have hvne : v ≠ "" := hv kd (List.mem_cons_self _ _) v hex
      have hcond : (pyTruthy (KeyStore.get_key st kd.service kd.environment)
          && !(false : Bool)) = true := by
        rw [hex]
        simp [pyTruthy, hvne]
      have hrest := ih st user now hwf
        (fun kd' hkd' => hv kd' (List.mem_cons_of_mem _ hkd'))
        hnodup.2
      rw [restoreLoop_cons, if_pos hcond]
      refine ⟨?_, ?_⟩
      · rw [List.filter_cons, if_neg (by simp [hex])]
        exact hrest.1
      · rw [List.filter_cons, if_pos (by simp [hex])]
        show (restoreLoop st rest false user now).2.1 + 1 = _
        rw [hrest.2, List.length_cons]
    | none =>
      have hcond : ¬ ((pyTruthy (KeyStore.get_key st kd.service
          kd.environment) && !(false : Bool)) = true) := by
        rw [hex]
        simp [pyTruthy]
      have hpair : ∀ kd' ∈ rest, lowPair kd' ≠ lowPair kd := by
        intro kd' hkd' hpe
        exact hnodup.1 (hpe ▸ List.mem_map_of_mem lowPair hkd')
      have hsame : ∀ kd' ∈ rest,
          KeyStore.get_key (KeyStore.store_key st kd.service kd.environment
            kd.key user now) kd'.service kd'.environment =
          KeyStore.get_key st kd'.service kd'.environment := by
        intro kd' hkd'
        exact get_key_store_key_ne st kd.service kd.environment kd'.service
          kd'.environment kd.key user now hwf (hpair kd' hkd')
      have hrest := ih (KeyStore.store_key st kd.service kd.environment
          kd.key user now) user now
        (WFKeyStore_store_key st kd.service kd.environment kd.key user now hwf)
        (fun kd' hkd' v hg => hv kd' (List.mem_cons_of_mem _ hkd') v
          ((hsame kd' hkd') ▸ hg))
        hnodup.2
      have hfilter_none :
          (rest.filter (fun kd' => (KeyStore.get_key (KeyStore.store_key st
            kd.service kd.environment kd.key user now) kd'.service
            kd'.environment).isNone)) =
          (rest.filter (fun kd' =>
            (KeyStore.get_key st kd'.service kd'.environment).isNone)) :=
        List.filter_congr (fun kd' hkd' => by rw [hsame kd' hkd'])
      have hfilter_some :
          (rest.filter (fun kd' => (KeyStore.get_key (KeyStore.store_key st
            kd.service kd.environment kd.key user now) kd'.service
            kd'.environment).isSome)) =
          (rest.filter (fun kd' =>
            (KeyStore.get_key st kd'.service kd'.environment).isSome)) :=
        List.filter_congr (fun kd' hkd' => by rw [hsame kd' hkd'])
      rw [restoreLoop_cons, if_neg hcond]
      refine ⟨?_, ?_⟩
      · rw [List.filter_cons, if_pos (by simp [hex])]
        show (restoreLoop (KeyStore.store_key st kd.service kd.environment
          kd.key user now) rest false user now).1 + 1 = _
        rw [hrest.1, hfilter_none, List.length_cons]
      · rw [List.filter_cons, if_neg (by simp [hex])]
        show (restoreLoop (KeyStore.store_key st kd.service kd.environment
          kd.key user now) rest false user now).2.1 = _
        rw [hrest.2, hfilter_some]

/-- A key-store state whose (a, dev) pair is present with the empty string
as its stored secret value. -/
def emptySecretState : KeyStoreState :=
  { db := [(("a", "dev"), ⟨"keymaster-a", "t0", "alice"⟩)]
    secrets := [(("keymaster-a", "dev"), "")] }

/-- C5, counterexample.  With `overwrite_existing=False`, a pair that is
already present in the current store — `get_key` returns a value, here the
empty string — is nevertheless restored (overwritten), not skipped: the
source tests `if existing_key and not overwrite_existing`, and Python
truthiness treats the empty string as absent.  The claim that all
already-present keys are reported as skipped is false at this input. -/
theorem restore_overwrites_present_empty_key :
    KeyStore.get_key emptySecretState "a" "dev" = some "" ∧
    ((restore_backup_data emptySecretState
      [⟨"a", "dev", "sk-new-key-12", "t1", "bob"⟩] false "u" "t").1).restored_keys = 1 ∧
    ((restore_backup_data emptySecretState
      [⟨"a", "dev", "sk-new-key-12", "t1", "bob"⟩] false "u" "t").1).skipped_keys = 0 := by
  refine ⟨rfl, rfl, rfl⟩

/-- C5, amended claim.  For every `_restore_backup_data` run with
`overwrite_existing=False`: unconditionally,
`restored_keys + skipped_keys = total_processed = len(archive.keys)` (so
`skipped_keys = total - restored_keys`) and no per-key errors occur in the
model.  Moreover, on a well-formed store whose present secrets are all
non-empty and for an archive without duplicate (service, environment)
pairs, exactly the keys absent from the current store are restored and
exactly the already-present ones are skipped.  (The amendment:
"present" must mean a non-empty stored value — a pair stored with the empty
string is treated as absent and overwritten — and the
restored/skipped split is stated for duplicate-free archives.) -/
theorem restore_backup_data_skip_counts (st : KeyStoreState)
    (ks : List BackupKey) (user now : String) :
    ((restore_backup_data st ks false user now).1.restored_keys +
        (restore_backup_data st ks false user now).1.skipped_keys =
        ks.length ∧
      (restore_backup_data st ks false user now).1.total_processed =
        ks.length ∧
      (restore_backup_data st ks false user now).1.errors = []) ∧
    (WFKeyStore st →
      (∀ p ∈ st.secrets, p.2 ≠ "") →
      ((ks.map lowPair).Nodup) →
      (restore_backup_data st ks false user now).1.skipped_keys =
        (ks.filter (fun kd =>
          (KeyStore.get_key st kd.service kd.environment).isSome)).length ∧
      (restore_backup_data st ks false user now).1.restored_keys =
        (ks.filter (fun kd =>
          (KeyStore.get_key st kd.service kd.environment).isNone)).length) := by
  constructor
  · exact ⟨restoreLoop_total ks st false user now, rfl, rfl⟩
  · intro hwf hsec hnodup
    have hv : ∀ kd ∈ ks, ∀ v,
        KeyStore.get_key st kd.service kd.environment = some v → v ≠ "" :=
      fun kd _ v hg => get_key_some_ne_empty st kd.service kd.environment v
        hsec hg
    have h := restoreLoop_counts ks st user now hwf hv hnodup
    exact ⟨h.2, h.1⟩

/-- A well-formed one-key store for the C5 witness. -/
def c5State : KeyStoreState :=
  { db := [(("openai", "dev"), ⟨"keymaster-openai", "t0", "alice"⟩)]
    secrets := [(("keymaster-openai", "dev"), "sk-old-key-99")] }

/-- A two-entry archive for the C5 witness: one pair conflicts with
`c5State`, one is new. -/
def c5Archive : List BackupKey :=
  [⟨"openai", "dev", "sk-new-key-11", "t1", "bob"⟩,
   ⟨"anthropic", "prod", "sk-ant-key-22", "t1", "bob"⟩]

/-- C5, witness for the amended claim: restoring `c5Archive` into `c5State`
with `overwrite_existing=False` skips the one already-present pair and
restores the one absent pair. -/
theorem restore_backup_data_skip_counts_witness :
    (restore_backup_data c5State c5Archive false "u" "t").1.skipped_keys = 1 ∧
    (restore_backup_data c5State c5Archive false "u" "t").1.restored_keys
      = 1 := by
  have h := (restore_backup_data_skip_counts c5State c5Archive "u" "t").2
    (by decide) (by decide) (by decide)
  exact ⟨h.1.trans (by decide), h.2.trans (by decide)⟩

theorem filterChecks_eq (etf sf ef : Option String) (decrypt : Bool)
    (dec : String → Except String String) (e : AuditEvent) :
    filterChecks etf sf ef decrypt dec e =
      if ((match etf with
          | some et => e.event_type == some et
          | none => true) &&
        (match sf with
          | some s => e.service == some s
          | none => true) &&
        (match ef with
          | some en => e.environment == some en
          | none => true)) then some (annotateEvent decrypt dec e)
      else none := by
  unfold filterChecks
  cases etf with
  | none =>
    cases sf with
    | none =>
      cases ef with
      | none => simp
      | some en => cases he : (e.environment == some en) <;> simp [he, bne]
    | some s =>
      cases hs : (e.service == some s) <;>
        cases ef <;> simp [hs, bne]
  | some et =>
    cases het : (e.event_type == some et) <;>
      cases sf <;> cases ef <;> simp [het, bne] <;>
      (try simp [ite_and])

theorem processEvent_eq (start_date end_date : Option Int)
    (etf sf ef : Option String) (decrypt : Bool)
    (dec : String → Except String String) (e : AuditEvent)
    (h : (start_date = none ∧ end_date = none) ∨
      ∃ t, e.timestamp = some (.valid t)) :
    processEvent start_date end_date etf sf ef decrypt dec e =
      .ok (if specMatches start_date end_date etf sf ef e then
        some (annotateEvent decrypt dec e) else none) := by
  rcases h with ⟨hs, hend⟩ | ⟨t, ht⟩
  · subst hs
    subst hend
    show Except.ok (filterChecks etf sf ef decrypt dec e) = _
    rw [filterChecks_eq]
    rfl
  · unfold processEvent tsFilter specMatches
    rw [ht]
    cases start_date with
    | none =>
      cases end_date with
      | none =>
        rw [filterChecks_eq]
        rfl
      | some b2 =>
        cases hk : (!(t > b2)) <;> simp [hk, filterChecks_eq]
    | some b1 =>
      cases hk1 : (!(t < b1)) with
      | false => simp [hk1]
      | true =>
        cases end_date with
        | none => simp [hk1, filterChecks_eq]
        | some b2 => cases hk2 : (!(t > b2)) <;> simp [hk1, hk2, filterChecks_eq]

theorem getEventsLoop_eq (start_date end_date : Option Int)
    (etf sf ef : Option String) (decrypt : Bool)
    (dec : String → Except String String) (file : List AuditLogLine)
    (h : (start_date = none ∧ end_date = none) ∨
      ∀ e, AuditLogLine.event e ∈ file → ∃ t, e.timestamp = some (.valid t)) :
    getEventsLoop start_date end_date etf sf ef decrypt dec file =
      .ok (specGetEvents start_date end_date etf sf ef decrypt dec file) := by
  induction file with
  | nil => rfl
  | cons l rest ih =>
    have hrest : (start_date = none ∧ end_date = none) ∨
        ∀ e, AuditLogLine.event e ∈ rest →
          ∃ t, e.timestamp = some (.valid t) := by
      rcases h with h | h
      · exact Or.inl h
      · exact Or.inr (fun e he => h e (List.mem_cons_of_mem _ he))
    cases l with
    | malformed raw =>
      show getEventsLoop start_date end_date etf sf ef decrypt dec rest = _
      rw [ih hrest]
      rfl
    | event e =>
      have he : (start_date = none ∧ end_date = none) ∨
          ∃ t, e.timestamp = some (.valid t) := by
        rcases h with h | h
        · exact Or.inl h
        · exact Or.inr (h e (List.mem_cons_self _ _))
      show (match processEvent start_date end_date etf sf ef decrypt dec e
          with
        | Except.error msg => (Except.error msg :
            Except String (List AuditEvent))
        | Except.ok none => getEventsLoop start_date end_date etf sf ef
            decrypt dec rest
        | Except.ok (some e') => (getEventsLoop start_date end_date etf sf ef
            decrypt dec rest).map (e' :: ·)) = _
      rw [processEvent_eq start_date end_date etf sf ef decrypt dec e he,
        ih hrest]
      by_cases hm : specMatches start_date end_date etf sf ef e = true
      · rw [if_pos hm]
        show Except.ok (_ :: specGetEvents start_date end_date etf sf ef
          decrypt dec rest) = _
        show _ = Except.ok (specGetEvents start_date end_date etf sf ef
          decrypt dec (.event e :: rest))
        unfold specGetEvents
        rw [List.filterMap_cons]
        simp only [hm, if_pos]
      · rw [if_neg hm]
        show Except.ok (specGetEvents start_date end_date etf sf ef decrypt
          dec rest) = _
        unfold specGetEvents
        rw [List.filterMap_cons]
        have hm' : specMatches start_date end_date etf sf ef e = false :=
          Bool.not_eq_true _ ▸ Bool.eq_false_iff.mpr hm
        simp only [hm']
        rfl

/-- C6, amended claim.  `get_events` returns exactly the events from lines
that parse as JSON and satisfy the supplied filters, in file order, skipping
every line that fails to parse, and with `decrypt=True` a per-event
decryption failure only annotates that event with `decryption_error` —
provided that no date filter is supplied, or every JSON-parsed event carries
a parseable `timestamp` (the amendment: with a `start_date`/`end_date`
filter, an event whose timestamp is missing or unparseable aborts the whole
read with an `AuditError` instead of being filtered). -/
theorem get_events_returns_filtered (start_date end_date : Option Int)
    (etf sf ef : Option String) (decrypt : Bool)
    (dec : String → Except String String) (file : List AuditLogLine)
    (h : (start_date = none ∧ end_date = none) ∨
      ∀ e, AuditLogLine.event e ∈ file → ∃ t, e.timestamp = some (.valid t)) :
    get_events start_date end_date etf sf ef decrypt dec file =
      .ok (specGetEvents start_date end_date etf sf ef decrypt dec file) := by
  unfold get_events
  rw [getEventsLoop_eq start_date end_date etf sf ef decrypt dec file h]

/-- An audit event that parses as JSON but has no `timestamp` field. -/
def noTimestampEvent : AuditEvent :=
  { timestamp := none, event_type := some "add_key", user := some "u",
    service := none, environment := none, encrypted_data := none,
    decrypted_data := none, decryption_error := none }

/-- C6, counterexample.  With a start-date filter supplied, a log whose one
line parses as JSON but lacks a `timestamp` makes `get_events` fail with an
`AuditError` (wrapping the `KeyError`) instead of returning the filtered
event list: the whole read aborts, so the claim as stated is false at this
input. -/
theorem get_events_aborts_on_missing_timestamp :
    get_events (some 0) none none none none false (fun s => .ok s)
      [.event noTimestampEvent] =
      .error "Failed to retrieve audit events: KeyError: timestamp" := rfl

/-- The audit log file for the C6 witness: a malformed line between two valid
events, one carrying an encrypted payload the decryption oracle rejects. -/
def c6File : List AuditLogLine :=
  [.event ⟨some (.valid 5), some "add_key", some "u", some "openai",
     some "dev", some "tok-bad", none, none⟩,
   .malformed "not json at all",
   .event ⟨some (.valid 9), some "remove_key", some "u", some "openai",
     some "dev", none, none, none⟩]

/-- The decryption oracle for the C6 witness: it fails on `"tok-bad"`. -/
def c6Dec : String → Except String String :=
  fun s => if s = "tok-bad" then .error "InvalidToken" else .ok s

/-- C6, witness: with no date filters and `decrypt=True`, `get_events` on
`c6File` skips the malformed line, returns both events in file order, and
annotates the event with the failing token with `decryption_error` instead
of aborting. -/
theorem get_events_returns_filtered_witness :
    get_events none none none none none true c6Dec c6File =
      .ok [⟨some (.valid 5), some "add_key", some "u", some "openai",
          some "dev", some "tok-bad", none, some "InvalidToken"⟩,
        ⟨some (.valid 9), some "remove_key", some "u", some "openai",
          some "dev", none, none, none⟩] :=
  (get_events_returns_filtered none none none none none true c6Dec c6File
    (Or.inl ⟨rfl, rfl⟩)).trans (by rfl)

theorem mem_insertDescBy {α β : Type} [LT β]
    [DecidableRel ((· < ·) : β → β → Prop)] (key : α → β) (x a : α) :
    ∀ l : List α, a ∈ insertDescBy key x l ↔ a = x ∨ a ∈ l := by
  intro l
  induction l with
  | nil => simp [insertDescBy]
  | cons y ys ih =>
    unfold insertDescBy
    by_cases hc : key y < key x
    · rw [if_pos hc]
      simp
    · rw [if_neg hc]
      simp only [List.mem_cons, ih]
      tauto

theorem mem_sortDescBy {α β : Type} [LT β]
    [DecidableRel ((· < ·) : β → β → Prop)] (key : α → β) (a : α)
    (l : List α) : a ∈ sortDescBy key l ↔ a ∈ l := by
  suffices h : ∀ (l acc : List α),
      (a ∈ l.foldl (fun acc x => insertDescBy key x acc) acc ↔
        a ∈ acc ∨ a ∈ l) by
    rw [sortDescBy, h l []]
    simp
  intro l
  induction l with
  | nil => intro acc; simp
  | cons y ys ih =>
    intro acc
    show a ∈ ys.foldl _ (insertDescBy key y acc) ↔ _
    rw [ih (insertDescBy key y acc), mem_insertDescBy]
    simp only [List.mem_cons]
    tauto

theorem pairwise_insertDescBy {α β : Type} [LinearOrder β] (key : α → β)
    (x : α) (l : List α)
    (h : List.Pairwise (fun a b => key b ≤ key a) l) :
    List.Pairwise (fun a b => key b ≤ key a) (insertDescBy key x l) := by
  induction l with
  | nil => simp [insertDescBy]
  | cons y ys ih =>
    unfold insertDescBy
    by_cases hc : key y < key x
    · rw [if_pos hc]
      refine List.Pairwise.cons ?_ h
      intro b hb
      rcases List.mem_cons.mp hb with hb | hb
      · exact le_of_lt (hb ▸ hc)
      · exact le_trans (List.rel_of_pairwise_cons h hb) (le_of_lt hc)
    · rw [if_neg hc]
      refine List.Pairwise.cons ?_ (ih (List.Pairwise.of_cons h))
      intro b hb
      rcases (mem_insertDescBy key x b ys).mp hb with hb | hb
      · exact hb ▸ (not_lt.mp hc)
      · exact List.rel_of_pairwise_cons h hb

theorem pairwise_sortDescBy {α β : Type} [LinearOrder β] (key : α → β)
    (l : List α) :
    List.Pairwise (fun a b => key b ≤ key a) (sortDescBy key l) := by
  suffices h : ∀ (l acc : List α),
      List.Pairwise (fun a b => key b ≤ key a) acc →
      List.Pairwise (fun a b => key b ≤ key a)
        (l.foldl (fun acc x => insertDescBy key x acc) acc) by
    exact h l [] List.Pairwise.nil
  intro l
  induction l with
  | nil => intro acc hacc; exact hacc
  | cons y ys ih =>
    intro acc hacc
    exact ih (insertDescBy key y acc) (pairwise_insertDescBy key y acc hacc)

theorem pySimilarity_eq_spec (target candidate : String) :
    pySimilarity target candidate = specSimilarity target candidate := by
  simp only [pySimilarity, specSimilarity]
  by_cases hml : 0 < max (pyLower target).data.length
      (pyLower candidate).data.length
  · rw [if_pos hml]
    by_cases hsub : (containsSub (pyLower candidate).data
        (pyLower target).data || containsSub (pyLower target).data
        (pyLower candidate).data) = true
    · rw [if_pos hsub, if_pos hsub]
    · rw [if_neg hsub, if_neg hsub]
      ring
  · rw [if_neg hml]
    have hz : ((max (pyLower target).data.length
        (pyLower candidate).data.length : ℕ) : ℚ) = 0 := by
      rw [Nat.eq_zero_of_not_pos hml]
      rfl
    rw [hz, div_zero]
    by_cases hsub : (containsSub (pyLower candidate).data
        (pyLower target).data || containsSub (pyLower target).data
        (pyLower candidate).data) = true
    · rw [if_pos hsub, if_pos hsub]
    · rw [if_neg hsub, if_neg hsub]
      ring

theorem mem_scored_closest (target : String) (candidates : List String)
    (p : ℚ × String)
    (hp : p ∈ sortDescBy (fun q => q.1)
      (candidates.map (fun c => (pySimilarity target c, c)))) :
    p.2 ∈ candidates ∧ p.1 = pySimilarity target p.2 := by
  have hmem := (mem_sortDescBy (fun q => q.1) p _).mp hp
  obtain ⟨c, hc, hpc⟩ := List.mem_map.mp hmem
  exact ⟨hpc ▸ hc, by rw [← hpc]⟩

/-- C7.  `_get_closest_matches` (with the default `max_matches = 3`):
every returned candidate comes from the input list and scores strictly
above 3/10; at most 3 are returned; the returned list is sorted by score in
descending order; when no candidate scores above 3/10, the result is empty;
and the score used is exactly the spec's formula (count of target
characters present in the candidate, case-insensitively, divided by the max
of the two lengths, plus a flat 1/2 when either string contains the
other). -/
theorem closest_matches_spec (target : String) (candidates : List String) :
    (∀ c ∈ getClosestMatches target candidates, c ∈ candidates ∧
      (3/10 : ℚ) < pySimilarity target c) ∧
    (getClosestMatches target candidates).length ≤ 3 ∧
    List.Pairwise (fun a b =>
      pySimilarity target b ≤ pySimilarity target a)
      (getClosestMatches target candidates) ∧
    ((∀ c ∈ candidates, pySimilarity target c ≤ 3/10) →
      getClosestMatches target candidates = []) ∧
    (∀ s c, pySimilarity s c = specSimilarity s c) := by
  by_cases hempty : (candidates.isEmpty || target == "") = true
  · have hres : getClosestMatches target candidates = [] := by
      unfold getClosestMatches
      rw [if_pos (by simpa using hempty)]
    rw [hres]
    exact ⟨by simp, by simp, by simp, fun _ => rfl,
      fun s c => pySimilarity_eq_spec s c⟩
  · have hres : getClosestMatches target candidates =
        ((((sortDescBy (fun p => p.1)
          (candidates.map (fun c => (pySimilarity target c, c)))).filter
            (fun p => (3/10 : ℚ) < p.1)).map (fun p => p.2)).take 3) := by
      unfold getClosestMatches
      rw [if_neg (by simpa using hempty)]
    refine ⟨?_, ?_, ?_, ?_, fun s c => pySimilarity_eq_spec s c⟩
    · intro c hc
      rw [hres] at hc
      have hc' := List.mem_of_mem_take hc
      obtain ⟨p, hpf, hpc⟩ := List.mem_map.mp hc'
      have hps := List.mem_filter.mp hpf
      have hmem := mem_scored_closest target candidates p hps.1
      have hscore : (3/10 : ℚ) < p.1 := by simpa using hps.2
      exact ⟨hpc ▸ hmem.1, by
        rw [← hpc, ← hmem.2]
        exact hscore⟩
    · rw [hres]
      exact List.length_take_le _ _
    · rw [hres]
      refine List.Pairwise.sublist (List.take_sublist _ _) ?_
      have hpw := pairwise_sortDescBy (fun p : ℚ × String => p.1)
        (candidates.map (fun c => (pySimilarity target c, c)))
      have hpwf : List.Pairwise (fun a b : ℚ × String => b.1 ≤ a.1)
          ((sortDescBy (fun p => p.1)
            (candidates.map (fun c => (pySimilarity target c, c)))).filter
              (fun p => (3/10 : ℚ) < p.1)) :=
        List.Pairwise.sublist (List.filter_sublist _) hpw
      rw [List.pairwise_map]
      refine List.Pairwise.imp_of_mem ?_ hpwf
      intro a b ha hb hab
      have hma := mem_scored_closest target candidates a
        (List.mem_filter.mp ha).1
      have hmb := mem_scored_closest target candidates b
        (List.mem_filter.mp hb).1
      rw [← hma.2, ← hmb.2]
      exact hab
    · intro hall
      rw [hres]
      have hfe : ((sortDescBy (fun p => p.1)
          (candidates.map (fun c => (pySimilarity target c, c)))).filter
            (fun p => (3/10 : ℚ) < p.1)) = [] := by
        rw [List.filter_eq_nil_iff]
        intro p hp
        have hmem := mem_scored_closest target candidates p hp
        have := hall p.2 hmem.1
        simp only [decide_eq_true_eq, not_lt]
        rw [hmem.2]
        exact this
      rw [hfe]
      rfl

/-- C7, witness: `closest_matches("zzz", ["openai", "anthropic",
"stability"])` returns the empty list — no candidate scores above 3/10. -/
theorem closest_matches_spec_witness :
    (∀ c ∈ (["openai", "anthropic", "stability"] : List String),
      pySimilarity "zzz" c ≤ 3/10) ∧
    getClosestMatches "zzz" ["openai", "anthropic", "stability"] = [] := by
  have h1 : pySimilarity "zzz" "openai" = ((0 : ℕ) : ℚ) / ((6 : ℕ) : ℚ) :=
    rfl
  have h2 : pySimilarity "zzz" "anthropic" = ((0 : ℕ) : ℚ) / ((9 : ℕ) : ℚ) :=
    rfl
  have h3 : pySimilarity "zzz" "stability" = ((0 : ℕ) : ℚ) / ((9 : ℕ) : ℚ) :=
    rfl
  have hall : ∀ c ∈ (["openai", "anthropic", "stability"] : List String),
      pySimilarity "zzz" c ≤ 3/10 := by
    intro c hc
    fin_cases hc
    · rw [h1]
      norm_num
    · rw [h2]
      norm_num
    · rw [h3]
      norm_num
  exact ⟨hall,
    (closest_matches_spec "zzz" ["openai", "anthropic", "stability"]).2.2.2.1
      hall⟩

/-- C9.  Every entry returned by `list_rotation_candidates(days_threshold)`
has urgency `"high"` exactly when its days-since-rotation exceeds 180,
`"medium"` exactly when it lies in (120, 180], and `"low"` otherwise; and —
for a stored-key list without duplicate (service, environment) pairs — a key
whose reference time (last successful rotation, or the metadata update time
when there is no rotation history) lies within `days_threshold` days of now
does not appear in the result at all. -/
theorem rotation_candidates_urgency (history : RotationHistoryMap)
    (storedKeys : List (String × String × Int)) (now days_threshold : Int) :
    (∀ cand ∈ list_rotation_candidates history storedKeys now days_threshold,
      (cand.urgency = "high" ↔ 180 < cand.days_since_rotation) ∧
      (cand.urgency = "medium" ↔ (120 < cand.days_since_rotation ∧
        cand.days_since_rotation ≤ 180)) ∧
      (cand.urgency = "low" ↔ cand.days_since_rotation ≤ 120)) ∧
    ((storedKeys.map (fun k => (k.1, k.2.1))).Nodup →
      ∀ k ∈ storedKeys,
        now - effectiveLast history k.1 k.2.1 k.2.2 ≤
          days_threshold * 86400 →
        ∀ cand ∈ list_rotation_candidates history storedKeys now
          days_threshold,
          ¬(cand.service = k.1 ∧ cand.environment = k.2.1)) := by
  have hproj : ∀ d : String × String × Int,
      (mkRotationCandidate now d).urgency =
        (if 180 < Int.fdiv (now - d.2.2) 86400 then "high"
         else if 120 < Int.fdiv (now - d.2.2) 86400 then "medium"
         else "low") ∧
      (mkRotationCandidate now d).days_since_rotation =
        Int.fdiv (now - d.2.2) 86400 ∧
      (mkRotationCandidate now d).service = d.1 ∧
      (mkRotationCandidate now d).environment = d.2.1 :=
    fun d => ⟨rfl, rfl, rfl, rfl⟩
  constructor
  · intro cand hcand
    unfold list_rotation_candidates at hcand
    rw [mem_sortDescBy] at hcand
    obtain ⟨d, hd, rfl⟩ := List.mem_map.mp hcand
    rw [(hproj d).1, (hproj d).2.1]
    by_cases h180 : (180 : ℤ) < Int.fdiv (now - d.2.2) 86400
    · rw [if_pos h180]
      exact ⟨iff_of_true rfl h180,
        iff_of_false (by decide) (by omega),
        iff_of_false (by decide) (by omega)⟩
    · rw [if_neg h180]
      by_cases h120 : (120 : ℤ) < Int.fdiv (now - d.2.2) 86400
      · rw [if_pos h120]
        exact ⟨iff_of_false (by decide) h180,
          iff_of_true rfl ⟨h120, by omega⟩,
          iff_of_false (by decide) (by omega)⟩
      · rw [if_neg h120]
        exact ⟨iff_of_false (by decide) h180,
          iff_of_false (by decide) (by omega),
          iff_of_true rfl (by omega)⟩
  · intro hnodup k hk hwithin cand hcand
    unfold list_rotation_candidates at hcand
    rw [mem_sortDescBy] at hcand
    obtain ⟨d, hd, rfl⟩ := List.mem_map.mp hcand
    rw [(hproj d).2.2.1, (hproj d).2.2.2]
    intro hmatch
    unfold get_keys_due_for_rotation at hd
    obtain ⟨row, hrow, hfrow⟩ := List.mem_filterMap.mp hd
    simp only at hfrow
    by_cases hlt : effectiveLast history row.1 row.2.1 row.2.2 <
        now - days_threshold * 86400
    · rw [if_pos hlt] at hfrow
      have hd' := Option.some.inj hfrow
      have hd1 : d.1 = row.1 := by rw [← hd']
      have hd21 : d.2.1 = row.2.1 := by rw [← hd']
      have hrowk : row = k := by
        refine List.inj_on_of_nodup_map hnodup hrow hk ?_
        show (row.1, row.2.1) = (k.1, k.2.1)
        rw [← hd1, ← hd21, hmatch.1, hmatch.2]
      rw [hrowk] at hlt
      omega
    · rw [if_neg hlt] at hfrow
      cases hfrow

/-- Stored keys for the C9 witness: one key updated 10 days before `now`. -/
def c9Stored : List (String × String × Int) := [("openai", "dev", 990 * 86400)]

/-- C9, witness: with a 90-day threshold and no rotation history, the key
last updated 10 days ago does not appear among the rotation candidates. -/
theorem rotation_candidates_urgency_witness :
    ∀ cand ∈ list_rotation_candidates [] c9Stored (1000 * 86400) 90,
      ¬(cand.service = "openai" ∧ cand.environment = "dev") :=
  (rotation_candidates_urgency [] c9Stored (1000 * 86400) 90).2
    (by decide) ("openai", "dev", 990 * 86400) (by decide) (by decide)

end Keymaster
